import Mathlib

/-!
Verification of the TEM parallel-plate transmission-line solver
(`calculate_tem` in `tem_app.py`) against its specification.

The solver is embedded shallowly: real-valued Python floats become `ℝ`,
complex values become `ℂ`, `np.lib.scimath.sqrt` becomes the principal
branch of the complex power `z ^ (1/2)`, `np.linspace(0, L, 500)` becomes
an explicit 500-element list, and the elementwise numpy array operations
become `List.map`.  The material catalogs are dictionaries of exact decimal
literals, embedded over `ℚ` (which represents the decimal literals exactly
and keeps catalog facts decidable).
-/

set_option maxRecDepth 8000

namespace TEM

/-- Embedding of `np.lib.scimath.sqrt`: the principal branch of the complex
square root, `z ^ (1/2)` with the principal logarithm.  Its real part is
non-negative for every argument, and on the non-negative reals it agrees
with the real square root, exactly like `np.lib.scimath.sqrt`. -/
noncomputable def csqrt (z : ℂ) : ℂ := z ^ (((1 : ℝ) / 2 : ℝ) : ℂ)

/-- The principal branch has non-negative real part. -/
theorem csqrt_re_nonneg (z : ℂ) : 0 ≤ (csqrt z).re := by
  rw [csqrt, Complex.cpow_def]
  split_ifs with h1 h2
  · norm_num
  · norm_num
  · rw [Complex.exp_re]
    apply mul_nonneg (Real.exp_pos _).le
    apply Real.cos_nonneg_of_mem_Icc
    have h3 : (Complex.log z * (((1 : ℝ) / 2 : ℝ) : ℂ)).im = z.arg / 2 := by
      simp [Complex.mul_im, Complex.log_im]
      ring
    rw [h3, Set.mem_Icc]
    constructor
    · have := Complex.neg_pi_lt_arg z
      linarith
    · have := Complex.arg_le_pi z
      linarith

/-- On non-negative reals the principal complex square root agrees with the
real square root. -/
theorem csqrt_ofReal (x : ℝ) (hx : 0 ≤ x) :
    csqrt (x : ℂ) = ((Real.sqrt x : ℝ) : ℂ) := by
  rw [csqrt, ← Complex.ofReal_cpow hx, Real.sqrt_eq_rpow]

/-- `csqrt` really is a square root. -/
theorem csqrt_sq (z : ℂ) : csqrt z ^ 2 = z := by
  rcases eq_or_ne z 0 with rfl | hz
  · rw [csqrt, Complex.zero_cpow (by norm_num)]
    ring
  · rw [csqrt, sq, ← Complex.cpow_add _ _ hz]
    norm_num

/-- Conductor catalog `MATERIALES_CONDUCTORES`: name ↦ (σ_c, μ_r). -/
def MATERIALES_CONDUCTORES : List (String × ℚ × ℚ) :=
  [("Aluminio", 3.82e7, 1.0),
   ("Cobre", 5.80e7, 1.0),
   ("Oro", 4.10e7, 1.0),
   ("Plata", 6.17e7, 1.0),
   ("Hierro", 1.03e7, 500.0),
   ("Níquel", 1.45e7, 100.0),
   ("Latón", 1.50e7, 1.0),
   ("Zinc", 1.67e7, 1.0),
   ("Tungsteno", 1.82e7, 1.0)]

/-- Dielectric catalog `MATERIALES_DIELECTRICOS`: name ↦ (tanδ, μ_r, ε_r). -/
def MATERIALES_DIELECTRICOS : List (String × ℚ × ℚ × ℚ) :=
  [("Aire", 0, 1.0, 1.0005),
   ("Alcohol_etílico", 100.00e-3, 1.0, 25.0),
   ("Oxido_de_aluminio", 0.60e-3, 1.0, 8.8),
   ("Baquelita", 22.00e-3, 1.0, 4.74),
   ("Dióxido_de_carbono", 0, 1.0, 1.001),
   ("Vidrio", 2.00e-3, 1.0, 4.0),
   ("Hielo", 50.00e-3, 1.0, 4.2),
   ("Mica", 0.60e-3, 1.0, 5.4),
   ("Nylon", 20.00e-3, 1.0, 3.5),
   ("Papel", 8.00e-3, 1.0, 3.0),
   ("Plexiglás", 30.00e-3, 1.0, 3.45),
   ("Polietileno", 0.20e-3, 1.0, 2.26),
   ("Polipropileno", 0.30e-3, 1.0, 2.25),
   ("Poliestireno", 0.05e-3, 1.0, 2.56),
   ("Porcelana", 14.00e-3, 1.0, 6.0),
   ("Vidrio_Pyrex", 0.60e-3, 1.0, 4.0),
   ("Cuarzo", 0.75e-3, 1.0, 3.8),
   ("Hule", 2.00e-3, 1.0, 2.5),
   ("Nieve", 500.00e-3, 1.0, 3.3),
   ("Tierra_seca", 50.00e-3, 1.0, 2.8),
   ("Teflon", 0.30e-3, 1.0, 2.1),
   ("Madera_seca", 10.00e-3, 1.0, 1.5)]

/-- The tuple returned by `calculate_tem`:
`(gamma, Z0, R, L_unit, C, G, z, V_z, I_z)`. -/
structure TEMResult where
  gamma : ℂ
  Z0 : ℂ
  R : ℂ
  L_unit : ℝ
  C : ℝ
  G : ℝ
  z : List ℝ
  V_z : List ℂ
  I_z : List ℂ

/-- Embedding of `calculate_tem(f, d, W, conductor_data, dielectric_data, L)`.
`conductor_data = (sigma_c, mur_c)`, `dielectric_data = (tan_delta, mur_diel,
epsilon_r)`; index `[k]` of the python list becomes the corresponding
projection.  `np.linspace(0, L, 500)` produces the points `k * (L / 499)`
for `k = 0, …, 499`. -/
noncomputable def calculate_tem (f d W : ℝ) (conductor_data : ℝ × ℝ)
    (dielectric_data : ℝ × ℝ × ℝ) (L : ℝ) : TEMResult :=
  let mu0 : ℝ := 4 * Real.pi * 1e-7
  let eps0 : ℝ := 8.854e-12
  let w : ℝ := 2 * Real.pi * f
  let sigma_c : ℝ := conductor_data.1
  let mur_c : ℝ := conductor_data.2
  let tan_delta : ℝ := dielectric_data.1
  let er : ℝ := dielectric_data.2.2
  let Rs : ℂ := csqrt (((Real.pi * f * mu0 * mur_c) / sigma_c : ℝ) : ℂ)
  let R : ℂ := (2 * Rs) / (W : ℂ)
  let L_unit : ℝ := mu0 * mur_c * d / W
  let C : ℝ := eps0 * er * W / d
  let G : ℝ := w * C * tan_delta
  let Z : ℂ := R + Complex.I * (w : ℂ) * (L_unit : ℂ)
  let Y : ℂ := (G : ℂ) + Complex.I * (w : ℂ) * (C : ℂ)
  let gamma : ℂ := csqrt (Z * Y)
  let Z0 : ℂ := csqrt (Z / Y)
  let z : List ℝ := (List.range 500).map (fun k : ℕ => (k : ℝ) * (L / 499))
  let V_input : ℂ := 1.0
  let V_z : List ℂ := z.map (fun zk : ℝ => V_input * Complex.exp (-gamma * (zk : ℂ)))
  let I_z : List ℂ := V_z.map (fun v => v / Z0)
  ⟨gamma, Z0, R, L_unit, C, G, z, V_z, I_z⟩

/-- Unfolding of the `R` component. -/
theorem calculate_tem_R (f d W : ℝ) (cd : ℝ × ℝ) (dd : ℝ × ℝ × ℝ) (L : ℝ) :
    (calculate_tem f d W cd dd L).R =
      (2 * csqrt (((Real.pi * f * (4 * Real.pi * 1e-7) * cd.2) / cd.1 : ℝ) : ℂ)) / (W : ℂ) :=
  rfl

/-- Unfolding of the `V_z` component. -/
theorem calculate_tem_V_z (f d W : ℝ) (cd : ℝ × ℝ) (dd : ℝ × ℝ × ℝ) (L : ℝ) :
    (calculate_tem f d W cd dd L).V_z =
      ((List.range 500).map (fun k : ℕ => (k : ℝ) * (L / 499))).map
        (fun zk : ℝ => (1.0 : ℂ) *
          Complex.exp (-(calculate_tem f d W cd dd L).gamma * (zk : ℂ))) :=
  rfl

/-- Unfolding of the `I_z` component. -/
theorem calculate_tem_I_z (f d W : ℝ) (cd : ℝ × ℝ) (dd : ℝ × ℝ × ℝ) (L : ℝ) :
    (calculate_tem f d W cd dd L).I_z =
      (calculate_tem f d W cd dd L).V_z.map
        (fun v => v / (calculate_tem f d W cd dd L).Z0) :=
  rfl

/-- Unfolding of the `z` component. -/
theorem calculate_tem_z (f d W : ℝ) (cd : ℝ × ℝ) (dd : ℝ × ℝ × ℝ) (L : ℝ) :
    (calculate_tem f d W cd dd L).z =
      (List.range 500).map (fun k : ℕ => (k : ℝ) * (L / 499)) :=
  rfl

/-- C1: for every valid input the four per-unit-length parameters returned by
`calculate_tem` equal the reference formulas: `R = 2·sqrt(π f μ0 μr_c / σ_c)/W`
with `μ0 = 4π·1e-7`, `L_unit = μ0 μr_c d / W`, `C = ε0 εr W / d` with
`ε0 = 8.854e-12`, and `G = 2π f C tanδ`.  (A conductor's relative permeability
is non-negative: the data model requires `μ_r ≥ 1`.) -/
theorem C1_rlcg_formulas (f d W L sigma_c mur_c tan_delta mur_d er : ℝ)
    (hf : 0 < f) (hd : 0 < d) (hW : 0 < W) (hs : 0 < sigma_c) (hm : 0 ≤ mur_c) :
    (calculate_tem f d W (sigma_c, mur_c) (tan_delta, mur_d, er) L).R =
      ((2 * Real.sqrt (Real.pi * f * (4 * Real.pi * 1e-7) * mur_c / sigma_c) / W : ℝ) : ℂ) ∧
    (calculate_tem f d W (sigma_c, mur_c) (tan_delta, mur_d, er) L).L_unit =
      (4 * Real.pi * 1e-7) * mur_c * d / W ∧
    (calculate_tem f d W (sigma_c, mur_c) (tan_delta, mur_d, er) L).C =
      8.854e-12 * er * W / d ∧
    (calculate_tem f d W (sigma_c, mur_c) (tan_delta, mur_d, er) L).G =
      2 * Real.pi * f *
        (calculate_tem f d W (sigma_c, mur_c) (tan_delta, mur_d, er) L).C * tan_delta := by
  refine ⟨?_, rfl, rfl, rfl⟩
  have harg : 0 ≤ Real.pi * f * (4 * Real.pi * 1e-7) * mur_c / sigma_c := by
    have hpi := Real.pi_pos
    positivity
  rw [calculate_tem_R, csqrt_ofReal _ harg]
  push_cast
  ring

/-- Witness for C1 at a concrete valid input. -/
theorem C1_rlcg_formulas_witness :
    ((0 : ℝ) < 1 ∧ (0 : ℝ) ≤ 1) ∧
    (calculate_tem 1 1 1 (1, 1) (0, 1, 1) 1).L_unit = (4 * Real.pi * 1e-7) * 1 * 1 / 1 :=
  ⟨⟨by norm_num, by norm_num⟩,
   (C1_rlcg_formulas 1 1 1 1 1 1 0 1 1 (by norm_num) (by norm_num) (by norm_num)
      (by norm_num) (by norm_num)).2.1⟩

/-- C2: the returned propagation constant is the principal-branch complex
square root of `Z·Y` and the returned characteristic impedance the
principal-branch complex square root of `Z/Y`, where `Z = R + jωL_unit` and
`Y = G + jωC` are built from the per-unit-length parameters of the same call
and `ω = 2πf`.  Being a principal branch, each of them squares back to its
radicand and has non-negative real part. -/
theorem C2_gamma_Z0 (f d W L sigma_c mur_c tan_delta mur_d er : ℝ) :
    (calculate_tem f d W (sigma_c, mur_c) (tan_delta, mur_d, er) L).gamma =
      csqrt
        (((calculate_tem f d W (sigma_c, mur_c) (tan_delta, mur_d, er) L).R +
            Complex.I * ((2 * Real.pi * f : ℝ) : ℂ) *
              (((calculate_tem f d W (sigma_c, mur_c) (tan_delta, mur_d, er) L).L_unit : ℝ) : ℂ)) *
          ((((calculate_tem f d W (sigma_c, mur_c) (tan_delta, mur_d, er) L).G : ℝ) : ℂ) +
            Complex.I * ((2 * Real.pi * f : ℝ) : ℂ) *
              (((calculate_tem f d W (sigma_c, mur_c) (tan_delta, mur_d, er) L).C : ℝ) : ℂ))) ∧
    (calculate_tem f d W (sigma_c, mur_c) (tan_delta, mur_d, er) L).Z0 =
      csqrt
        (((calculate_tem f d W (sigma_c, mur_c) (tan_delta, mur_d, er) L).R +
            Complex.I * ((2 * Real.pi * f : ℝ) : ℂ) *
              (((calculate_tem f d W (sigma_c, mur_c) (tan_delta, mur_d, er) L).L_unit : ℝ) : ℂ)) /
          ((((calculate_tem f d W (sigma_c, mur_c) (tan_delta, mur_d, er) L).G : ℝ) : ℂ) +
            Complex.I * ((2 * Real.pi * f : ℝ) : ℂ) *
              (((calculate_tem f d W (sigma_c, mur_c) (tan_delta, mur_d, er) L).C : ℝ) : ℂ))) ∧
    (calculate_tem f d W (sigma_c, mur_c) (tan_delta, mur_d, er) L).gamma ^ 2 =
      ((calculate_tem f d W (sigma_c, mur_c) (tan_delta, mur_d, er) L).R +
          Complex.I * ((2 * Real.pi * f : ℝ) : ℂ) *
            (((calculate_tem f d W (sigma_c, mur_c) (tan_delta, mur_d, er) L).L_unit : ℝ) : ℂ)) *
        ((((calculate_tem f d W (sigma_c, mur_c) (tan_delta, mur_d, er) L).G : ℝ) : ℂ) +
          Complex.I * ((2 * Real.pi * f : ℝ) : ℂ) *
            (((calculate_tem f d W (sigma_c, mur_c) (tan_delta, mur_d, er) L).C : ℝ) : ℂ)) ∧
    0 ≤ (calculate_tem f d W (sigma_c, mur_c) (tan_delta, mur_d, er) L).gamma.re ∧
    0 ≤ (calculate_tem f d W (sigma_c, mur_c) (tan_delta, mur_d, er) L).Z0.re := by
  refine ⟨rfl, rfl, csqrt_sq _, csqrt_re_nonneg _, csqrt_re_nonneg _⟩

/-- C3: the returned propagation constant has non-negative real part for
every valid input (causality: the wave attenuates along `+z`). -/
theorem C3_gamma_re_nonneg (f d W L sigma_c mur_c tan_delta mur_d er : ℝ)
    (hf : 0 < f) (hd : 0 < d) (hW : 0 < W) (hL : 0 < L) (hs : 0 < sigma_c)
    (hm : 1 ≤ mur_c) (ht : 0 ≤ tan_delta) (he : 0 < er) :
    0 ≤ (calculate_tem f d W (sigma_c, mur_c) (tan_delta, mur_d, er) L).gamma.re :=
  csqrt_re_nonneg _

/-- Witness for C3 at a concrete valid input. -/
theorem C3_gamma_re_nonneg_witness :
    ((0 : ℝ) < 1 ∧ (1 : ℝ) ≤ 1 ∧ (0 : ℝ) ≤ 0) ∧
    0 ≤ (calculate_tem 1 1 1 (1, 1) (0, 1, 1) 1).gamma.re :=
  ⟨⟨by norm_num, by norm_num, by norm_num⟩,
   C3_gamma_re_nonneg 1 1 1 1 1 1 0 1 1 (by norm_num) (by norm_num) (by norm_num)
     (by norm_num) (by norm_num) (by norm_num) (by norm_num) (by norm_num)⟩

/-- Entry `k` of the voltage profile, for `k < 500`. -/
theorem calculate_tem_V_get (f d W : ℝ) (cd : ℝ × ℝ) (dd : ℝ × ℝ × ℝ) (L : ℝ)
    (k : ℕ) (hk : k < 500) :
    (calculate_tem f d W cd dd L).V_z[k]? =
      some ((1.0 : ℂ) *
        Complex.exp (-(calculate_tem f d W cd dd L).gamma * (((k : ℝ) * (L / 499) : ℝ) : ℂ))) := by
  rw [calculate_tem_V_z, List.getElem?_map, List.getElem?_map, List.getElem?_range hk]
  rfl

/-- Magnitude of one voltage-profile entry. -/
theorem abs_V_entry (g : ℂ) (t : ℝ) :
    Complex.abs ((1.0 : ℂ) * Complex.exp (-g * (t : ℂ))) = Real.exp (-g.re * t) := by
  have h1 : ((1.0 : ℂ)) = 1 := by norm_num
  rw [h1, one_mul, Complex.abs_exp]
  congr 1
  simp [Complex.mul_re]

/-- C4: the first element of the returned voltage profile is exactly `1 + 0j`,
and the first point of the spatial axis is `0`. -/
theorem C4_V_zero (f d W L sigma_c mur_c tan_delta mur_d er : ℝ) :
    (calculate_tem f d W (sigma_c, mur_c) (tan_delta, mur_d, er) L).V_z[0]? = some 1 ∧
    (calculate_tem f d W (sigma_c, mur_c) (tan_delta, mur_d, er) L).z[0]? = some 0 := by
  constructor
  · rw [calculate_tem_V_get f d W (sigma_c, mur_c) (tan_delta, mur_d, er) L 0 (by norm_num)]
    norm_num
  · rw [calculate_tem_z, List.getElem?_map, List.getElem?_range (by norm_num : 0 < 500)]
    norm_num

/-- C5: for every index `k`, the current profile entry is the voltage profile
entry divided by the characteristic impedance of the same call. -/
theorem C5_current_ratio (f d W L sigma_c mur_c tan_delta mur_d er : ℝ) (k : ℕ) :
    (calculate_tem f d W (sigma_c, mur_c) (tan_delta, mur_d, er) L).I_z[k]? =
      Option.map (fun v => v / (calculate_tem f d W (sigma_c, mur_c) (tan_delta, mur_d, er) L).Z0)
        (calculate_tem f d W (sigma_c, mur_c) (tan_delta, mur_d, er) L).V_z[k]? := by
  rw [calculate_tem_I_z, List.getElem?_map]

/-- C6: the spatial axis is a strictly increasing list of exactly 500
uniformly spaced points (spacing `L/499`) starting at `0` and ending at `L`,
and the voltage and current profiles have the same length as the axis. -/
theorem C6_axis (f d W L sigma_c mur_c tan_delta mur_d er : ℝ) (hL : 0 < L) :
    (calculate_tem f d W (sigma_c, mur_c) (tan_delta, mur_d, er) L).z.length = 500 ∧
    (calculate_tem f d W (sigma_c, mur_c) (tan_delta, mur_d, er) L).V_z.length =
      (calculate_tem f d W (sigma_c, mur_c) (tan_delta, mur_d, er) L).z.length ∧
    (calculate_tem f d W (sigma_c, mur_c) (tan_delta, mur_d, er) L).I_z.length =
      (calculate_tem f d W (sigma_c, mur_c) (tan_delta, mur_d, er) L).z.length ∧
    (calculate_tem f d W (sigma_c, mur_c) (tan_delta, mur_d, er) L).z[0]? = some 0 ∧
    (calculate_tem f d W (sigma_c, mur_c) (tan_delta, mur_d, er) L).z[499]? = some L ∧
    (∀ k : ℕ, k + 1 < 500 →
      (calculate_tem f d W (sigma_c, mur_c) (tan_delta, mur_d, er) L).z[k + 1]? =
        Option.map (fun a => a + L / 499)
          (calculate_tem f d W (sigma_c, mur_c) (tan_delta, mur_d, er) L).z[k]?) ∧
    (calculate_tem f d W (sigma_c, mur_c) (tan_delta, mur_d, er) L).z.Pairwise (· < ·) := by
  refine ⟨?_, ?_, ?_, ?_, ?_, ?_, ?_⟩
  · rw [calculate_tem_z]
    simp
  · rw [calculate_tem_V_z, calculate_tem_z]
    simp
  · rw [calculate_tem_I_z, calculate_tem_V_z, calculate_tem_z]
    simp
  · rw [calculate_tem_z, List.getElem?_map, List.getElem?_range (by norm_num : 0 < 500)]
    norm_num
  · rw [calculate_tem_z, List.getElem?_map, List.getElem?_range (by norm_num : 499 < 500)]
    norm_num
    ring
  · intro k hk
    rw [calculate_tem_z, List.getElem?_map, List.getElem?_map, List.getElem?_range hk,
      List.getElem?_range (Nat.lt_of_succ_lt hk)]
    simp only [Option.map_some']
    congr 1
    push_cast
    ring
  · rw [calculate_tem_z, List.pairwise_map]
    refine (List.pairwise_lt_range 500).imp ?_
    intro a b hab
    have hq : (0 : ℝ) < L / 499 := by positivity
    exact mul_lt_mul_of_pos_right (by exact_mod_cast hab) hq

/-- Witness for C6 at a concrete valid input. -/
theorem C6_axis_witness :
    (0 : ℝ) < 1 ∧
    (calculate_tem 1 1 1 (1, 1) (0, 1, 1) 1).z.length = 500 :=
  ⟨by norm_num, (C6_axis 1 1 1 1 1 1 0 1 1 (by norm_num)).1⟩

/-- C7: for every valid input the voltage magnitude sequence is monotonically
non-increasing: consecutive entries satisfy `|V(z_{k+1})| ≤ |V(z_k)|`. -/
theorem C7_V_mag_antitone (f d W L sigma_c mur_c tan_delta mur_d er : ℝ)
    (hf : 0 < f) (hd : 0 < d) (hW : 0 < W) (hL : 0 < L) (hs : 0 < sigma_c)
    (hm : 1 ≤ mur_c) (ht : 0 ≤ tan_delta) (he : 0 < er)
    (k : ℕ) (hk : k + 1 < 500) :
    ∃ a b,
      (calculate_tem f d W (sigma_c, mur_c) (tan_delta, mur_d, er) L).V_z[k]? = some a ∧
      (calculate_tem f d W (sigma_c, mur_c) (tan_delta, mur_d, er) L).V_z[k + 1]? = some b ∧
      Complex.abs b ≤ Complex.abs a := by
  have hk' : k < 500 := Nat.lt_of_succ_lt hk
  rw [calculate_tem_V_get f d W (sigma_c, mur_c) (tan_delta, mur_d, er) L k hk',
    calculate_tem_V_get f d W (sigma_c, mur_c) (tan_delta, mur_d, er) L (k + 1) hk]
  refine ⟨_, _, rfl, rfl, ?_⟩
  rw [abs_V_entry, abs_V_entry]
  apply Real.exp_le_exp.mpr
  have hg : 0 ≤ (calculate_tem f d W (sigma_c, mur_c) (tan_delta, mur_d, er) L).gamma.re :=
    csqrt_re_nonneg _
  have hstep : (k : ℝ) * (L / 499) ≤ ((k + 1 : ℕ) : ℝ) * (L / 499) := by
    have : ((k : ℝ)) ≤ ((k + 1 : ℕ) : ℝ) := by exact_mod_cast Nat.le_succ k
    exact mul_le_mul_of_nonneg_right this (by positivity)
  exact mul_le_mul_of_nonpos_left hstep (neg_nonpos.mpr hg)

/-- Witness for C7 at a concrete valid input and index. -/
theorem C7_V_mag_antitone_witness :
    ((0 : ℝ) < 1 ∧ 0 + 1 < 500) ∧
    ∃ a b,
      (calculate_tem 1 1 1 (1, 1) (0, 1, 1) 1).V_z[0]? = some a ∧
      (calculate_tem 1 1 1 (1, 1) (0, 1, 1) 1).V_z[0 + 1]? = some b ∧
      Complex.abs b ≤ Complex.abs a :=
  ⟨⟨by norm_num, by norm_num⟩,
   C7_V_mag_antitone 1 1 1 1 1 1 0 1 1 (by norm_num) (by norm_num) (by norm_num)
     (by norm_num) (by norm_num) (by norm_num) (by norm_num) (by norm_num) 0 (by norm_num)⟩

/-- C8 counterexample: the conductor catalog has no entry named `"Copper"`;
the copper entry is named `"Cobre"`. -/
theorem C8_no_Copper_entry :
    (MATERIALES_CONDUCTORES.map Prod.fst).contains "Copper" = false := by
  decide

/-- C8 (amended): the catalogs contain exactly 9 conductor entries and 22
dielectric entries, the copper entry is named `"Cobre"` with `σ = 5.80e7` and
`μ_r = 1.0`, and the air entry is named `"Aire"` with `tanδ = 0`, `μ_r = 1.0`
and `ε_r = 1.0005`. -/
theorem C8_catalogs :
    MATERIALES_CONDUCTORES.length = 9 ∧
    MATERIALES_DIELECTRICOS.length = 22 ∧
    ("Cobre", (5.80e7 : ℚ), (1.0 : ℚ)) ∈ MATERIALES_CONDUCTORES ∧
    ("Aire", (0 : ℚ), (1.0 : ℚ), (1.0005 : ℚ)) ∈ MATERIALES_DIELECTRICOS := by
  refine ⟨rfl, rfl, ?_, ?_⟩ <;> simp [MATERIALES_CONDUCTORES, MATERIALES_DIELECTRICOS]

open Classical in
/-- Guarded variant of `calculate_tem` making the implicit failure modes of
the source explicit: inside `calculate_tem` the only operations that can
raise are the three scalar divisions by `sigma_c`, `W` and `d` (a Python
`ZeroDivisionError` when the divisor is zero); every other step
(`np.lib.scimath.sqrt`, the numpy complex division `Z / Y`, `np.exp`,
`np.linspace`) is total.  The guarded variant returns `none` exactly when one
of those divisors is zero, and the unguarded result otherwise. -/
noncomputable def calculate_tem_checked (f d W : ℝ) (conductor_data : ℝ × ℝ)
    (dielectric_data : ℝ × ℝ × ℝ) (L : ℝ) : Option TEMResult :=
  if conductor_data.1 = 0 ∨ W = 0 ∨ d = 0 then none
  else some (calculate_tem f d W conductor_data dielectric_data L)

/-- C9: on every strictly positive input the solver takes no error branch and
returns the complete result tuple: it is total on its documented domain. -/
theorem C9_total (f d W L sigma_c mur_c tan_delta mur_d er : ℝ)
    (hf : 0 < f) (hd : 0 < d) (hW : 0 < W) (hL : 0 < L) (hs : 0 < sigma_c) :
    calculate_tem_checked f d W (sigma_c, mur_c) (tan_delta, mur_d, er) L =
      some (calculate_tem f d W (sigma_c, mur_c) (tan_delta, mur_d, er) L) := by
  have hcond : ¬ ((sigma_c, mur_c).1 = 0 ∨ W = 0 ∨ d = 0) := by
    push_neg
    exact ⟨hs.ne', hW.ne', hd.ne'⟩
  rw [calculate_tem_checked, if_neg hcond]

/-- Witness for C9 at a concrete valid input. -/
theorem C9_total_witness :
    (0 : ℝ) < 1 ∧
    calculate_tem_checked 1 1 1 (1, 1) (0, 1, 1) 1 =
      some (calculate_tem 1 1 1 (1, 1) (0, 1, 1) 1) :=
  ⟨by norm_num,
   C9_total 1 1 1 1 1 1 0 1 1 (by norm_num) (by norm_num) (by norm_num)
     (by norm_num) (by norm_num)⟩

/-- C10: two calls whose inputs differ only in the dielectric's relative
permeability field `dielectric_data[1]` return identical results in every
component: the solver never reads the dielectric `μ_r` (the inductance uses
the conductor's `μ_r`). -/
theorem C10_dielectric_mur_unread (f d W L sigma_c mur_c tan_delta er mu1 mu2 : ℝ) :
    calculate_tem f d W (sigma_c, mur_c) (tan_delta, mu1, er) L =
      calculate_tem f d W (sigma_c, mur_c) (tan_delta, mu2, er) L :=
  rfl

end TEM
